import Mathlib

/-!
Shallow embedding of the core logic of `src/munis.py`, a read-only
municipal-bond analytics dashboard: dynamic filtered queries (WHERE-clause
assembly with named bound parameters), derived fields (years to maturity,
credit-rating rank), and aggregations (mean, top-N, latest-record-per-key),
together with the control flow of the three tab renderers.
-/

namespace Munis

/-! ### Sorting

`insSort` is a deterministic insertion sort used to embed the SQL
`ORDER BY` result sets and to give one concrete realisation of the
pandas `sort_values` call sites.  `SortValuesSpec` captures what
`sort_values` with its default kind (quicksort) actually guarantees: the
output is a permutation of the input ordered by the sort key, and the
relative order of rows with equal keys is unspecified — only
`kind="stable"`/`"mergesort"` would preserve it.  `insSort` is proved to
be one admissible implementation of that contract. -/

variable {α : Type}

/-- Insert `x` before the first element `y` of `l` with `le x y = true`. -/
def insIns (le : α → α → Bool) (x : α) : List α → List α
  | [] => [x]
  | y :: ys => if le x y then x :: y :: ys else y :: insIns le x ys

/-- Insertion sort by the Boolean relation `le`. -/
def insSort (le : α → α → Bool) : List α → List α
  | [] => []
  | x :: xs => insIns le x (insSort le xs)

/-- The contract of `DataFrame.sort_values` with its default kind: the
output is some permutation of the input that is ordered by the sort
key; the relative order of rows with equal keys is not specified. -/
def SortValuesSpec (le : α → α → Bool) (l out : List α) : Prop :=
  out.Perm l ∧ List.Pairwise (fun a b => le a b = true) out

theorem mem_insIns (le : α → α → Bool) (x a : α) :
    ∀ l : List α, (a ∈ insIns le x l ↔ a = x ∨ a ∈ l)
  | [] => by simp [insIns]
  | y :: ys => by
    by_cases h : le x y = true
    · simp only [insIns]
      rw [if_pos h]
      simp
    · simp only [insIns]
      rw [if_neg h]
      simp only [List.mem_cons, mem_insIns le x a ys]
      tauto

theorem mem_insSort (le : α → α → Bool) (a : α) :
    ∀ l : List α, (a ∈ insSort le l ↔ a ∈ l)
  | [] => Iff.rfl
  | x :: xs => by
    simp only [insSort, mem_insIns le x a (insSort le xs),
      mem_insSort le a xs, List.mem_cons]

theorem insIns_perm (le : α → α → Bool) (x : α) :
    ∀ l : List α, (insIns le x l).Perm (x :: l)
  | [] => List.Perm.refl _
  | y :: ys => by
    by_cases h : le x y = true
    · simp only [insIns]
      rw [if_pos h]
    · simp only [insIns]
      rw [if_neg h]
      exact ((insIns_perm le x ys).cons y).trans (List.Perm.swap x y ys)

theorem insSort_perm (le : α → α → Bool) :
    ∀ l : List α, (insSort le l).Perm l
  | [] => List.Perm.refl _
  | x :: xs => (insIns_perm le x (insSort le xs)).trans ((insSort_perm le xs).cons x)

theorem insIns_pairwise (le : α → α → Bool)
    (htot : ∀ a b, le a b = true ∨ le b a = true)
    (htrans : ∀ a b c, le a b = true → le b c = true → le a c = true)
    (x : α) :
    ∀ l : List α, List.Pairwise (fun a b => le a b = true) l →
      List.Pairwise (fun a b => le a b = true) (insIns le x l)
  | [], _ => by simp [insIns]
  | y :: ys, h => by
    rcases List.pairwise_cons.mp h with ⟨hy, hys⟩
    by_cases hxy : le x y = true
    · simp only [insIns]
      rw [if_pos hxy]
      refine List.pairwise_cons.mpr ⟨?_, h⟩
      intro z hz
      rcases List.mem_cons.mp hz with rfl | hz
      · exact hxy
      · exact htrans _ _ _ hxy (hy z hz)
    · simp only [insIns]
      rw [if_neg hxy]
      refine List.pairwise_cons.mpr ⟨?_, insIns_pairwise le htot htrans x ys hys⟩
      intro z hz
      rcases (mem_insIns le x z ys).mp hz with rfl | hz
      · rcases htot z y with h1 | h1
        · exact absurd h1 hxy
        · exact h1
      · exact hy z hz

theorem insSort_pairwise (le : α → α → Bool)
    (htot : ∀ a b, le a b = true ∨ le b a = true)
    (htrans : ∀ a b c, le a b = true → le b c = true → le a c = true) :
    ∀ l : List α, List.Pairwise (fun a b => le a b = true) (insSort le l)
  | [] => List.Pairwise.nil
  | x :: xs => by
    simp only [insSort]
    exact insIns_pairwise le htot htrans x _ (insSort_pairwise le htot htrans xs)

/-! ### First-occurrence-per-key selection, the model of
`DataFrame.groupby(key).head(1)` (which keeps, for each key, the first
row of the frame in its current order). -/

/-- Keep the first row carrying each key, walking the list front to back;
`seen` is the set of keys already emitted. -/
def dedupBy (key : α → String) : List α → List String → List α
  | [], _ => []
  | r :: rs, seen =>
    if seen.contains (key r) then dedupBy key rs seen
    else r :: dedupBy key rs (key r :: seen)

theorem dedupBy_sublist (key : α → String) :
    ∀ (l : List α) (seen : List String), List.Sublist (dedupBy key l seen) l
  | [], _ => List.Sublist.refl []
  | r :: rs, seen => by
    by_cases h : seen.contains (key r) = true
    · simp only [dedupBy]
      rw [if_pos h]
      exact (dedupBy_sublist key rs seen).cons r
    · simp only [dedupBy]
      rw [if_neg h]
      exact (dedupBy_sublist key rs (key r :: seen)).cons₂ r

theorem dedupBy_nodup_and_fresh (key : α → String) :
    ∀ (l : List α) (seen : List String),
      ((dedupBy key l seen).map key).Nodup ∧
        ∀ r ∈ dedupBy key l seen, key r ∉ seen
  | [], _ => by simp [dedupBy]
  | r :: rs, seen => by
    by_cases h : seen.contains (key r) = true
    · simp only [dedupBy]
      rw [if_pos h]
      exact dedupBy_nodup_and_fresh key rs seen
    · simp only [dedupBy]
      rw [if_neg h]
      rcases dedupBy_nodup_and_fresh key rs (key r :: seen) with ⟨hnd, hfresh⟩
      constructor
      · rw [List.map_cons, List.nodup_cons]
        refine ⟨?_, hnd⟩
        intro hmem
        rcases List.mem_map.mp hmem with ⟨r2, hr2, hkey⟩
        exact hfresh r2 hr2 (hkey ▸ List.mem_cons_self (key r) seen)
      · intro r2 hr2
        rcases List.mem_cons.mp hr2 with rfl | hr2
        · intro hc
          exact h (List.elem_iff.mpr hc)
        · intro hc
          exact hfresh r2 hr2 (List.mem_cons_of_mem _ hc)

theorem dedupBy_eq_self (key : α → String) :
    ∀ (l : List α) (seen : List String), (l.map key).Nodup →
      (∀ r ∈ l, key r ∉ seen) → dedupBy key l seen = l
  | [], _, _, _ => rfl
  | r :: rs, seen, hnd, hfresh => by
    have hc : ¬ seen.contains (key r) = true := fun hc =>
      hfresh r (List.mem_cons_self r rs) (List.elem_iff.mp hc)
    simp only [dedupBy]
    rw [if_neg hc]
    rw [List.map_cons, List.nodup_cons] at hnd
    rw [dedupBy_eq_self key rs (key r :: seen) hnd.2]
    intro r2 hr2 hmem
    rcases List.mem_cons.mp hmem with heq | hmem2
    · exact hnd.1 (heq ▸ List.mem_map_of_mem key hr2)
    · exact hfresh r2 (List.mem_cons_of_mem _ hr2) hmem2

/-! ### Credit-rating rank (`RATING_ORDER` / `rating_sort`, src/munis.py 322-331)

The code maps a grade to its position in `RATING_ORDER` and any grade not
in the list to the sentinel `999`. -/

/-- The fixed rating scale, best to worst, exactly as listed in the source. -/
def RATING_ORDER : List String :=
  ["AAA", "AA+", "AA", "AA-", "A+", "A", "A-",
   "BBB+", "BBB", "BBB-", "BB+", "BB", "BB-",
   "B+", "B", "B-", "CCC+", "CCC", "CCC-", "CC",
   "C", "D"]

/-- `RATING_ORDER.index(r) if r in RATING_ORDER else 999` (line 330). -/
def rating_rank (g : String) : Nat :=
  if RATING_ORDER.contains g then RATING_ORDER.indexOf g else 999

/-! ### Rows of the Ratings and Risk query (src/munis.py 215-229)

One row per (credit rating, bond) pair, with issuer fields nullable
because the issuer side is left-joined.  `rating_date` is the parsed
date as a day number. -/

structure RRow where
  cusip : String
  coupon_rate : ℚ
  duration : ℚ
  type : String
  issuer_name : Option String
  state : Option String
  agency : String
  rating_date : Int
  rating : String
  outlook : String
deriving DecidableEq

/-- Descending order on `rating_date`: `a` may come before `b` when
`a.rating_date ≥ b.rating_date` (`sort_values("rating_date", ascending=False)`). -/
def rdateDescLe (a b : RRow) : Bool := decide (b.rating_date ≤ a.rating_date)

theorem rdateDescLe_total : ∀ a b, rdateDescLe a b = true ∨ rdateDescLe b a = true := by
  intro a b
  simp only [rdateDescLe, decide_eq_true_eq]
  omega

theorem rdateDescLe_trans :
    ∀ a b c, rdateDescLe a b = true → rdateDescLe b c = true → rdateDescLe a c = true := by
  intro a b c
  simp only [rdateDescLe, decide_eq_true_eq]
  omega

/-- Latest record per key (src/munis.py 305-308):
`df.sort_values("rating_date", ascending=False).groupby("cusip").head(1)`,
i.e. sort the rows newest-first and keep the first row seen for each
CUSIP — the deterministic embedding instantiating the sort with
`insSort`; `LatestPerKeyR` below closes over every output the default
sort kind admits. -/
def latest_per_key (df : List RRow) : List RRow :=
  dedupBy (fun r => r.cusip) (insSort rdateDescLe df) []

/-- The "Latest Rating Updates" table (src/munis.py 305-311): latest
rating per bond, truncated to the 10 newest, sorted newest-first again. -/
def recent_updates (df : List RRow) : List RRow :=
  insSort rdateDescLe ((latest_per_key df).take 10)

/-- Descending order on the derived `rating_sort` column
(`sort_values("rating_sort", ascending=False)`, src/munis.py 332). -/
def ratingSortDescLe (a b : RRow) : Bool :=
  decide (rating_rank b.rating ≤ rating_rank a.rating)

theorem ratingSortDescLe_total :
    ∀ a b, ratingSortDescLe a b = true ∨ ratingSortDescLe b a = true := by
  intro a b
  simp only [ratingSortDescLe, decide_eq_true_eq]
  omega

theorem ratingSortDescLe_trans :
    ∀ a b c, ratingSortDescLe a b = true → ratingSortDescLe b c = true →
      ratingSortDescLe a c = true := by
  intro a b c
  simp only [ratingSortDescLe, decide_eq_true_eq]
  omega

/-- The "Highest-Risk Bonds" table (src/munis.py 329-335): sort by
`rating_sort` descending (worst grades first) and keep the first 10
rows — the deterministic embedding instantiating the sort with
`insSort`; `RiskyR` below closes over every admissible output. -/
def risky (df : List RRow) : List RRow :=
  (insSort ratingSortDescLe df).take 10

/-! ### Claim theorems about the ratings view -/

/-- C3: `rating_rank` is a total order over arbitrary grade strings: for
any two grades exactly one of rank a < rank b, rank a = rank b,
rank a > rank b holds; every grade outside the fixed scale maps to the
single sentinel rank 999, strictly greater (worse) than the rank of every
known grade, so all unknown grades rank equal to each other and worse
than all known grades; and in particular
rating_rank "AAA" < rating_rank "BBB" < rating_rank "ZZZ". -/
theorem rating_rank_total_order :
    (∀ a b : String,
        (rating_rank a < rating_rank b ∧ ¬ rating_rank a = rating_rank b ∧
          ¬ rating_rank b < rating_rank a) ∨
        (¬ rating_rank a < rating_rank b ∧ rating_rank a = rating_rank b ∧
          ¬ rating_rank b < rating_rank a) ∨
        (¬ rating_rank a < rating_rank b ∧ ¬ rating_rank a = rating_rank b ∧
          rating_rank b < rating_rank a)) ∧
    (∀ g : String, g ∉ RATING_ORDER → rating_rank g = 999) ∧
    (∀ g u : String, g ∈ RATING_ORDER → u ∉ RATING_ORDER →
      rating_rank g < rating_rank u) ∧
    (∀ u v : String, u ∉ RATING_ORDER → v ∉ RATING_ORDER →
      rating_rank u = rating_rank v) ∧
    rating_rank "AAA" < rating_rank "BBB" ∧
    rating_rank "BBB" < rating_rank "ZZZ" := by
  have hunknown : ∀ g : String, g ∉ RATING_ORDER → rating_rank g = 999 := by
    intro g hg
    have hc : ¬ RATING_ORDER.contains g = true := fun hc => hg (List.elem_iff.mp hc)
    simp only [rating_rank]
    rw [if_neg hc]
  have hknown : ∀ g : String, g ∈ RATING_ORDER → rating_rank g < 999 := by
    intro g hg
    have hc : RATING_ORDER.contains g = true := List.elem_iff.mpr hg
    have hlt : List.indexOf g RATING_ORDER < RATING_ORDER.length :=
      List.indexOf_lt_length.mpr hg
    have hlen : RATING_ORDER.length = 22 := by decide
    simp only [rating_rank]
    rw [if_pos hc]
    omega
  refine ⟨?_, hunknown, ?_, ?_, ?_, ?_⟩
  · intro a b
    omega
  · intro g u hg hu
    rw [hunknown u hu]
    exact hknown g hg
  · intro u v hu hv
    rw [hunknown u hu, hunknown v hv]
  · decide
  · decide

/-- Witness for C3 at concrete grades: a known grade ranks strictly below
an unknown one, and two distinct unknown grades rank equal. -/
theorem rating_rank_total_order_witness :
    rating_rank "A" < rating_rank "QQQ" ∧ rating_rank "QQQ" = rating_rank "ZZZ" :=
  ⟨rating_rank_total_order.2.2.1 "A" "QQQ" (by decide) (by decide),
   rating_rank_total_order.2.2.2.1 "QQQ" "ZZZ" (by decide) (by decide)⟩

/-! ### Calendar dates

Dates are modelled structurally; `daysFromCivil` converts a Gregorian
calendar date to a day number (days since 1970-01-01), matching the day
arithmetic pandas performs on `datetime` columns. -/

structure Date where
  year : Int
  month : Int
  day : Int
deriving DecidableEq

/-- Day number of a Gregorian date (days since 1970-01-01), the standard
civil-calendar conversion. -/
def daysFromCivil (dt : Date) : Int :=
  let y : Int := if dt.month ≤ 2 then dt.year - 1 else dt.year
  let era : Int := (if 0 ≤ y then y else y - 399).ediv 400
  let yoe : Int := y - era * 400
  let mp : Int := (dt.month + 9).emod 12
  let doy : Int := (153 * mp + 2).ediv 5 + dt.day - 1
  let doe : Int := yoe * 365 + yoe.ediv 4 - yoe.ediv 100 + doy
  era * 146097 + doe - 719468

/-! ### Rows of the Market Overview query (src/munis.py 56-75)

`state` and `purpose` are nullable because their tables are left-joined;
`price` and `yield` come from the lateral latest-trade subquery, absent
when a bond has no trades. -/

structure MRow where
  coupon_rate : ℚ
  duration : ℚ
  maturity_date : Option Date
  issue_date : Option Date
  cusip : String
  state : Option String
  type : String
  purpose : Option String
  price : Option ℚ
  yield : Option ℚ
deriving DecidableEq

/-! ### The WHERE-clause builder of the Market Overview view
(src/munis.py 38-53): one predicate and one named parameter per
non-empty multiselect, the clause omitted entirely when all are empty. -/

structure MarketSelection where
  states : List String
  types : List String
  purposes : List String
deriving DecidableEq

/-- The three possible predicates of the Market Overview WHERE clause. -/
inductive MPred
  | stateAny
  | typeAny
  | purposeAny
deriving DecidableEq

/-- SQL text of each predicate, exactly as appended in the source. -/
def mpredText : MPred → String
  | .stateAny => "i.state = ANY(:states)"
  | .typeAny => "b.type = ANY(:types)"
  | .purposeAny => "bp.category = ANY(:purposes)"

/-- The `where` list (src/munis.py 38-51): a predicate is appended only
when the corresponding multiselect is non-empty (Python truthiness). -/
def marketWhere (sel : MarketSelection) : List MPred :=
  (if sel.states.isEmpty then [] else [MPred.stateAny]) ++
    (if sel.types.isEmpty then [] else [MPred.typeAny]) ++
      (if sel.purposes.isEmpty then [] else [MPred.purposeAny])

/-- The `params` mapping (src/munis.py 39-51): one named binding per
non-empty multiselect, carrying the selected values as data. -/
def marketParams (sel : MarketSelection) : List (String × List String) :=
  (if sel.states.isEmpty then [] else [("states", sel.states)]) ++
    (if sel.types.isEmpty then [] else [("types", sel.types)]) ++
      (if sel.purposes.isEmpty then [] else [("purposes", sel.purposes)])

/-- `where_clause = "WHERE " + " AND ".join(where) if where else ""`
(src/munis.py 53). -/
def marketWhereClause (sel : MarketSelection) : String :=
  let w := (marketWhere sel).map mpredText
  if w.isEmpty then "" else "WHERE " ++ String.intercalate " AND " w

/-- The fixed part of the Market Overview query before the interpolated
WHERE clause (src/munis.py 56-72). -/
def marketSqlBase : String :=
  "SELECT b.coupon_rate, b.duration, b.maturity_date, b.issue_date, b.cusip, " ++
    "i.state, b.type, bp.category AS purpose, t.price, t.yield " ++
    "FROM bonds b " ++
    "LEFT JOIN bonds_issuers bi ON bi.bond_id = b.id " ++
    "LEFT JOIN issuers i ON bi.issuer_id = i.id " ++
    "LEFT JOIN bonds_purposes bp ON bp.id = b.purpose_id " ++
    "LEFT JOIN LATERAL (SELECT tr.price, tr.yield FROM trades tr " ++
    "JOIN bonds_trades bt ON bt.trade_id = tr.id WHERE bt.bond_id = b.id " ++
    "ORDER BY tr.date DESC LIMIT 1) t ON TRUE "

/-- The final Market Overview query text: only predicate placeholders are
interpolated, never selected values (src/munis.py 56-75). -/
def marketSql (sel : MarketSelection) : String :=
  marketSqlBase ++ marketWhereClause sel ++ " ORDER BY maturity_date;"

/-- Look up a named bound parameter; an absent name binds the empty list. -/
def lookupParam (ps : List (String × List String)) (k : String) : List String :=
  match ps.find? (fun p => p.fst == k) with
  | some p => p.snd
  | none => []

/-- SQL `column = ANY(:param)` over a nullable column: NULL satisfies no
`ANY` predicate. -/
def anyEval (v : Option String) (vals : List String) : Bool :=
  match v with
  | none => false
  | some s => vals.contains s

/-- Evaluate one Market Overview predicate against a row, reading the
selected values from the named parameter bindings. -/
def evalMPred (params : List (String × List String)) (r : MRow) : MPred → Bool
  | .stateAny => anyEval r.state (lookupParam params "states")
  | .typeAny => (lookupParam params "types").contains r.type
  | .purposeAny => anyEval r.purpose (lookupParam params "purposes")

/-- Row semantics of the assembled WHERE clause: with no predicates the
clause is omitted and no row is restricted; otherwise a row must satisfy
the conjunction of all predicates. -/
def runWhere (preds : List MPred) (params : List (String × List String))
    (rows : List MRow) : List MRow :=
  if preds.isEmpty then rows
  else rows.filter (fun r => preds.all (evalMPred params r))

/-- Sort key of `ORDER BY maturity_date` (NULLS LAST, ascending). -/
def mKey (r : MRow) : Int :=
  match r.maturity_date with
  | some d => daysFromCivil d
  | none => 100000000

def mLe (a b : MRow) : Bool := decide (mKey a ≤ mKey b)

/-- The filtered, ordered result set of the Market Overview query, as a
function of the (already joined) base rows. -/
def marketFilter (sel : MarketSelection) (rows : List MRow) : List MRow :=
  insSort mLe (runWhere (marketWhere sel) (marketParams sel) rows)

/-! ### The WHERE-clause builder of the Ratings and Risk view
(src/munis.py 197-227): same construction over state, agency, outlook. -/

structure RiskSelection where
  states : List String
  agencies : List String
  outlooks : List String
deriving DecidableEq

/-- The three possible predicates of the Ratings and Risk WHERE clause. -/
inductive RPred
  | stateAny
  | agencyAny
  | outlookAny
deriving DecidableEq

/-- SQL text of each predicate, exactly as appended in the source. -/
def rpredText : RPred → String
  | .stateAny => "i.state = ANY(:states)"
  | .agencyAny => "cr.agency = ANY(:agencies)"
  | .outlookAny => "cr.outlook = ANY(:outlooks)"

/-- The `where` list of the ratings view (src/munis.py 197-210). -/
def riskWhere (sel : RiskSelection) : List RPred :=
  (if sel.states.isEmpty then [] else [RPred.stateAny]) ++
    (if sel.agencies.isEmpty then [] else [RPred.agencyAny]) ++
      (if sel.outlooks.isEmpty then [] else [RPred.outlookAny])

/-- The `params` mapping of the ratings view (src/munis.py 198-210). -/
def riskParams (sel : RiskSelection) : List (String × List String) :=
  (if sel.states.isEmpty then [] else [("states", sel.states)]) ++
    (if sel.agencies.isEmpty then [] else [("agencies", sel.agencies)]) ++
      (if sel.outlooks.isEmpty then [] else [("outlooks", sel.outlooks)])

/-- `where_clause` of the ratings view (src/munis.py 212). -/
def riskWhereClause (sel : RiskSelection) : String :=
  let w := (riskWhere sel).map rpredText
  if w.isEmpty then "" else "WHERE " ++ String.intercalate " AND " w

/-- The fixed part of the ratings query (src/munis.py 215-224). -/
def riskSqlBase : String :=
  "SELECT b.cusip, b.coupon_rate, b.duration, b.type, " ++
    "i.name AS issuer_name, i.state, " ++
    "cr.agency, cr.date AS rating_date, cr.rating, cr.outlook " ++
    "FROM credit_ratings cr " ++
    "JOIN bonds_credit_ratings bcr ON bcr.credit_id = cr.id " ++
    "JOIN bonds b ON b.id = bcr.bond_id " ++
    "LEFT JOIN bonds_issuers bi ON bi.bond_id = b.id " ++
    "LEFT JOIN issuers i ON i.id = bi.issuer_id "

/-- The final ratings query text (src/munis.py 215-227). -/
def riskSql (sel : RiskSelection) : String :=
  riskSqlBase ++ riskWhereClause sel ++ " ORDER BY cr.date DESC;"

/-- Evaluate one ratings predicate against a row. -/
def evalRPred (params : List (String × List String)) (r : RRow) : RPred → Bool
  | .stateAny => anyEval r.state (lookupParam params "states")
  | .agencyAny => (lookupParam params "agencies").contains r.agency
  | .outlookAny => (lookupParam params "outlooks").contains r.outlook

/-- Row semantics of the ratings WHERE clause. -/
def runWhereR (preds : List RPred) (params : List (String × List String))
    (rows : List RRow) : List RRow :=
  if preds.isEmpty then rows
  else rows.filter (fun r => preds.all (evalRPred params r))

/-- The filtered, ordered result set of the ratings query
(`ORDER BY cr.date DESC`), as a function of the joined base rows. -/
def riskFilter (sel : RiskSelection) (rows : List RRow) : List RRow :=
  insSort rdateDescLe (runWhereR (riskWhere sel) (riskParams sel) rows)

/-! ### Parameter lookup round-trips: the `where` list and the `params`
mapping are built by parallel `if`s, so an active predicate always finds
its own values. -/

theorem lookupParam_marketParams_states (sel : MarketSelection)
    (h : sel.states.isEmpty = false) :
    lookupParam (marketParams sel) "states" = sel.states := by
  simp [marketParams, h, lookupParam]

theorem lookupParam_marketParams_types (sel : MarketSelection)
    (h : sel.types.isEmpty = false) :
    lookupParam (marketParams sel) "types" = sel.types := by
  cases hs : sel.states.isEmpty <;> simp [marketParams, h, hs, lookupParam]

theorem lookupParam_marketParams_purposes (sel : MarketSelection)
    (h : sel.purposes.isEmpty = false) :
    lookupParam (marketParams sel) "purposes" = sel.purposes := by
  cases hs : sel.states.isEmpty <;> cases ht : sel.types.isEmpty <;>
    simp [marketParams, h, hs, ht, lookupParam]

theorem lookupParam_riskParams_states (sel : RiskSelection)
    (h : sel.states.isEmpty = false) :
    lookupParam (riskParams sel) "states" = sel.states := by
  simp [riskParams, h, lookupParam]

theorem lookupParam_riskParams_agencies (sel : RiskSelection)
    (h : sel.agencies.isEmpty = false) :
    lookupParam (riskParams sel) "agencies" = sel.agencies := by
  cases hs : sel.states.isEmpty <;> simp [riskParams, h, hs, lookupParam]

theorem lookupParam_riskParams_outlooks (sel : RiskSelection)
    (h : sel.outlooks.isEmpty = false) :
    lookupParam (riskParams sel) "outlooks" = sel.outlooks := by
  cases hs : sel.states.isEmpty <;> cases ht : sel.agencies.isEmpty <;>
    simp [riskParams, h, hs, ht, lookupParam]

/-! ### Membership characterisation of the two filtered result sets -/

theorem mem_marketFilter (sel : MarketSelection) (rows : List MRow) (r : MRow) :
    r ∈ marketFilter sel rows ↔
      r ∈ rows ∧ (sel.states = [] ∨ anyEval r.state sel.states = true) ∧
        (sel.types = [] ∨ sel.types.contains r.type = true) ∧
        (sel.purposes = [] ∨ anyEval r.purpose sel.purposes = true) := by
  rw [marketFilter, mem_insSort]
  cases hs : sel.states.isEmpty <;> cases ht : sel.types.isEmpty <;>
    cases hp : sel.purposes.isEmpty <;>
    simp_all [runWhere, marketWhere, evalMPred,
      lookupParam_marketParams_states, lookupParam_marketParams_types,
      lookupParam_marketParams_purposes, and_assoc]

theorem mem_riskFilter (sel : RiskSelection) (rows : List RRow) (r : RRow) :
    r ∈ riskFilter sel rows ↔
      r ∈ rows ∧ (sel.states = [] ∨ anyEval r.state sel.states = true) ∧
        (sel.agencies = [] ∨ sel.agencies.contains r.agency = true) ∧
        (sel.outlooks = [] ∨ sel.outlooks.contains r.outlook = true) := by
  rw [riskFilter, mem_insSort]
  cases hs : sel.states.isEmpty <;> cases ht : sel.agencies.isEmpty <;>
    cases hp : sel.outlooks.isEmpty <;>
    simp_all [runWhereR, riskWhere, evalRPred,
      lookupParam_riskParams_states, lookupParam_riskParams_agencies,
      lookupParam_riskParams_outlooks, and_assoc]

theorem anyEval_singleton (o : Option String) (v : String) :
    anyEval o [v] = true ↔ o = some v := by
  cases o with
  | none => simp [anyEval]
  | some s => simp [anyEval, List.elem_iff]

/-! ### Fixture rows for witnesses -/

def rowCA : MRow :=
  { coupon_rate := 5, duration := 7, maturity_date := some ⟨2030, 1, 1⟩,
    issue_date := some ⟨2020, 1, 1⟩, cusip := "CA0001", state := some "CA",
    type := "GO", purpose := some "Education", price := some 101, yield := some 3 }

def rowNY : MRow :=
  { coupon_rate := 4, duration := 5, maturity_date := some ⟨2028, 6, 15⟩,
    issue_date := some ⟨2018, 6, 15⟩, cusip := "NY0001", state := some "NY",
    type := "Revenue", purpose := some "Transit", price := some 99, yield := some 4 }

def selCA : MarketSelection := { states := ["CA"], types := [], purposes := [] }

def selNone : MarketSelection := { states := [], types := [], purposes := [] }

def rselNone : RiskSelection := { states := [], agencies := [], outlooks := [] }

/-- An adversarial "selected value" full of quote and control characters. -/
def advValue : String := "\" OR 1=1; DROP TABLE bonds; --"

def selAdv : MarketSelection := { states := [advValue], types := [], purposes := [] }

def rowAdv : MRow :=
  { coupon_rate := 5, duration := 7, maturity_date := some ⟨2030, 1, 1⟩,
    issue_date := some ⟨2020, 1, 1⟩, cusip := "XX0001", state := some advValue,
    type := "GO", purpose := some "Education", price := some 101, yield := some 3 }

/-! ### Claim theorems about query assembly -/

/-- C1: the assembled query restricts rows by exactly the non-empty
dimensions, conjunctively, in both filtered views: a row is in the
filtered result iff it is an input row satisfying every active
is-any-of predicate; an empty dimension contributes no predicate and
excludes no row; and when every dimension is empty the WHERE clause is
omitted entirely (empty predicate list, empty clause text). -/
theorem filters_conjunctive :
    (∀ (sel : MarketSelection) (rows : List MRow) (r : MRow),
       r ∈ marketFilter sel rows ↔
         r ∈ rows ∧ (sel.states = [] ∨ anyEval r.state sel.states = true) ∧
           (sel.types = [] ∨ sel.types.contains r.type = true) ∧
           (sel.purposes = [] ∨ anyEval r.purpose sel.purposes = true)) ∧
    (∀ (sel : RiskSelection) (rows : List RRow) (r : RRow),
       r ∈ riskFilter sel rows ↔
         r ∈ rows ∧ (sel.states = [] ∨ anyEval r.state sel.states = true) ∧
           (sel.agencies = [] ∨ sel.agencies.contains r.agency = true) ∧
           (sel.outlooks = [] ∨ sel.outlooks.contains r.outlook = true)) ∧
    (∀ sel : MarketSelection, sel.states = [] → sel.types = [] → sel.purposes = [] →
       marketWhere sel = [] ∧ marketWhereClause sel = "") ∧
    (∀ sel : RiskSelection, sel.states = [] → sel.agencies = [] → sel.outlooks = [] →
       riskWhere sel = [] ∧ riskWhereClause sel = "") := by
  refine ⟨mem_marketFilter, mem_riskFilter, ?_, ?_⟩
  · intro sel h1 h2 h3
    have hw : marketWhere sel = [] := by simp [marketWhere, h1, h2, h3]
    exact ⟨hw, by simp [marketWhereClause, hw]⟩
  · intro sel h1 h2 h3
    have hw : riskWhere sel = [] := by simp [riskWhere, h1, h2, h3]
    exact ⟨hw, by simp [riskWhereClause, hw]⟩

/-- Witness for C1: with only the state filter `["CA"]` active, the CA
row is kept; with no filter active, the WHERE clause is the empty string. -/
theorem filters_conjunctive_witness :
    rowCA ∈ marketFilter selCA [rowCA, rowNY] ∧ marketWhereClause selNone = "" :=
  ⟨(filters_conjunctive.1 selCA [rowCA, rowNY] rowCA).mpr (by decide),
   (filters_conjunctive.2.2.1 selNone rfl rfl rfl).2⟩

/-- C2: user-supplied values never reach the query text, only the named
parameter bindings: the assembled query string depends solely on which
dimensions are non-empty (so an adversarial value cannot alter query
structure), an active dimension binds exactly the selected values as
data, and a selected value — whatever characters it contains — filters
rows by literal string equality. -/
theorem params_injection_safe (sel sel' : MarketSelection)
    (rsel rsel' : RiskSelection)
    (h1 : sel.states.isEmpty = sel'.states.isEmpty)
    (h2 : sel.types.isEmpty = sel'.types.isEmpty)
    (h3 : sel.purposes.isEmpty = sel'.purposes.isEmpty)
    (g1 : rsel.states.isEmpty = rsel'.states.isEmpty)
    (g2 : rsel.agencies.isEmpty = rsel'.agencies.isEmpty)
    (g3 : rsel.outlooks.isEmpty = rsel'.outlooks.isEmpty) :
    marketSql sel = marketSql sel' ∧ riskSql rsel = riskSql rsel' ∧
    (∀ v : String,
       lookupParam (marketParams { states := [v], types := [], purposes := [] })
         "states" = [v]) ∧
    (∀ (v : String) (rows : List MRow) (r : MRow),
       r ∈ marketFilter { states := [v], types := [], purposes := [] } rows ↔
         r ∈ rows ∧ r.state = some v) := by
  refine ⟨?_, ?_, ?_, ?_⟩
  · have hw : marketWhere sel = marketWhere sel' := by
      rw [marketWhere, marketWhere, h1, h2, h3]
    rw [marketSql, marketSql, marketWhereClause, marketWhereClause, hw]
  · have hw : riskWhere rsel = riskWhere rsel' := by
      rw [riskWhere, riskWhere, g1, g2, g3]
    rw [riskSql, riskSql, riskWhereClause, riskWhereClause, hw]
  · intro v
    exact lookupParam_marketParams_states _ rfl
  · intro v rows r
    rw [mem_marketFilter]
    simp [anyEval_singleton]

/-- Witness for C2: a value full of quote/control characters produces the
same query text as the ordinary value "CA", and it filters rows by plain
string equality, matching exactly the row whose state literally equals it. -/
theorem params_injection_safe_witness :
    marketSql selAdv = marketSql selCA ∧
      rowAdv ∈ marketFilter selAdv [rowAdv, rowNY] := by
  have h := params_injection_safe selAdv selCA rselNone rselNone
    rfl rfl rfl rfl rfl rfl
  exact ⟨h.1, (h.2.2.2 advValue [rowAdv, rowNY] rowAdv).mpr (by decide)⟩

/-! ### Base tables and the joins of the Market Overview query
(src/munis.py 56-75): bonds LEFT JOIN bonds_issuers LEFT JOIN issuers
LEFT JOIN bonds_purposes LEFT JOIN LATERAL latest-trade. -/

structure Issuer where
  id : Nat
  name : String
  state : String
deriving DecidableEq

structure Purpose where
  id : Nat
  category : String
  description : String
deriving DecidableEq

structure Bond where
  id : Nat
  cusip : String
  type : String
  coupon_rate : ℚ
  issue_date : Option Date
  maturity_date : Option Date
  duration : ℚ
  tax_status : Bool
  purpose_id : Option Nat
deriving DecidableEq

structure Trade where
  id : Nat
  date : Int
  price : ℚ
  yield : ℚ
  quantity : ℚ
deriving DecidableEq

structure BondIssuer where
  bond_id : Nat
  issuer_id : Nat
deriving DecidableEq

structure BondTrade where
  bond_id : Nat
  trade_id : Nat
deriving DecidableEq

/-- The two chained left joins `bonds_issuers` then `issuers` for one
bond: no link (or no issuer for a link) yields a single null issuer;
otherwise one entry per matching issuer. -/
def joinIssuer (links : List BondIssuer) (issuers : List Issuer) (b : Bond) :
    List (Option Issuer) :=
  let ls := links.filter (fun l => l.bond_id == b.id)
  if ls.isEmpty then [none]
  else ls.flatMap (fun l =>
    let ms := issuers.filter (fun i => i.id == l.issuer_id)
    if ms.isEmpty then [none] else ms.map some)

/-- `LEFT JOIN bonds_purposes bp ON bp.id = b.purpose_id`. -/
def joinPurpose (purposes : List Purpose) (b : Bond) : List (Option Purpose) :=
  let ps := purposes.filter (fun p => b.purpose_id == some p.id)
  if ps.isEmpty then [none] else ps.map some

/-- Descending order on trade date (`ORDER BY tr.date DESC`). -/
def tradeDescLe (a b : Trade) : Bool := decide (b.date ≤ a.date)

/-- The lateral subquery: the bond's trades, newest first, LIMIT 1. -/
def latestTrade (trades : List Trade) (bts : List BondTrade) (b : Bond) :
    Option Trade :=
  (insSort tradeDescLe (trades.filter (fun t =>
    bts.any (fun bt => bt.trade_id == t.id && bt.bond_id == b.id)))).head?

/-- Assemble one joined row of the Market Overview projection. -/
def mkMRow (b : Bond) (oi : Option Issuer) (op : Option Purpose)
    (ot : Option Trade) : MRow :=
  { coupon_rate := b.coupon_rate, duration := b.duration,
    maturity_date := b.maturity_date, issue_date := b.issue_date,
    cusip := b.cusip, state := oi.map (fun i => i.state), type := b.type,
    purpose := op.map (fun p => p.category),
    price := ot.map (fun t => t.price), yield := ot.map (fun t => t.yield) }

/-- The joined row set of the Market Overview query before the WHERE
clause: every bond contributes at least one row, null-filled where an
optional association is absent. -/
def marketBaseRows (bonds : List Bond) (links : List BondIssuer)
    (issuers : List Issuer) (purposes : List Purpose) (trades : List Trade)
    (bts : List BondTrade) : List MRow :=
  bonds.flatMap (fun b =>
    (joinIssuer links issuers b).flatMap (fun oi =>
      (joinPurpose purposes b).map (fun op =>
        mkMRow b oi op (latestTrade trades bts b))))

/-- The full Market Overview query: join, filter, order. -/
def marketQuery (sel : MarketSelection) (bonds : List Bond)
    (links : List BondIssuer) (issuers : List Issuer) (purposes : List Purpose)
    (trades : List Trade) (bts : List BondTrade) : List MRow :=
  marketFilter sel (marketBaseRows bonds links issuers purposes trades bts)

theorem joinIssuer_no_link (links : List BondIssuer) (issuers : List Issuer)
    (b : Bond) (hno : links.filter (fun l => l.bond_id == b.id) = []) :
    joinIssuer links issuers b = [none] := by
  simp [joinIssuer, hno]

theorem joinPurpose_ne_nil (purposes : List Purpose) (b : Bond) :
    joinPurpose purposes b ≠ [] := by
  simp only [joinPurpose]
  split
  · simp
  · rename_i h
    rw [Bool.not_eq_true, List.isEmpty_eq_false] at h
    simp [h]

/-! ### Claim theorem: rows with a missing issuer association -/

/-- C5: a bond with no issuer link still yields a row of the joined
result with the issuer-side column nulled (the row is never dropped by
the join), and a null-state row survives the WHERE clause exactly when no
state filter is active (and the other active filters pass), because a
null column satisfies no is-any-of predicate. -/
theorem missing_issuer_rows_kept (bonds : List Bond) (links : List BondIssuer)
    (issuers : List Issuer) (purposes : List Purpose) (trades : List Trade)
    (bts : List BondTrade) (b : Bond) (sel : MarketSelection)
    (hb : b ∈ bonds)
    (hno : links.filter (fun l => l.bond_id == b.id) = []) :
    (∃ r ∈ marketBaseRows bonds links issuers purposes trades bts,
       r.cusip = b.cusip ∧ r.state = none) ∧
    (∀ (rows : List MRow) (r : MRow), r.state = none →
       (r ∈ marketFilter sel rows ↔
         r ∈ rows ∧ sel.states = [] ∧
           (sel.types = [] ∨ sel.types.contains r.type = true) ∧
           (sel.purposes = [] ∨ anyEval r.purpose sel.purposes = true))) := by
  constructor
  · obtain ⟨op, hop⟩ := List.exists_mem_of_ne_nil _ (joinPurpose_ne_nil purposes b)
    refine ⟨mkMRow b none op (latestTrade trades bts b), ?_, rfl, rfl⟩
    rw [marketBaseRows]
    refine List.mem_flatMap.mpr ⟨b, hb, ?_⟩
    refine List.mem_flatMap.mpr ⟨none, ?_, ?_⟩
    · rw [joinIssuer_no_link links issuers b hno]
      exact List.mem_singleton.mpr rfl
    · exact List.mem_map_of_mem _ hop
  · intro rows r hr
    rw [mem_marketFilter]
    simp [hr, anyEval]

def bondOrphan : Bond :=
  { id := 1, cusip := "ORPH01", type := "GO", coupon_rate := 5,
    issue_date := some ⟨2020, 1, 1⟩, maturity_date := some ⟨2030, 1, 1⟩,
    duration := 7, tax_status := true, purpose_id := none }

/-- Witness for C5: a concrete bond with no issuer link produces a
null-state row in the joined result. -/
theorem missing_issuer_rows_kept_witness :
    ∃ r ∈ marketBaseRows [bondOrphan] [] [] [] [] [],
      r.cusip = bondOrphan.cusip ∧ r.state = none :=
  (missing_issuer_rows_kept [bondOrphan] [] [] [] [] [] bondOrphan selNone
    (by decide) (by decide)).1

/-! ### Aggregation and the empty-result guard (src/munis.py 78-92,
231-242): each view checks `df.empty` first and stops with a warning,
so aggregates are only ever computed over non-empty input. -/

/-- Mean of a numeric column: undefined (`none`) over an empty input,
never zero. -/
def mean (l : List ℚ) : Option ℚ :=
  if l.isEmpty then none else some (l.sum / (l.length : ℚ))

/-- What the Market Overview view surfaces: an informational no-data
message, or the metrics block. -/
inductive MarketOutput
  | noData (msg : String)
  | view (avgCoupon avgDuration : Option ℚ) (count : Nat)
deriving DecidableEq

/-- The guard and metrics of `render_market_overview`
(src/munis.py 77-92). -/
def render_market_overview (sel : MarketSelection) (bonds : List Bond)
    (links : List BondIssuer) (issuers : List Issuer) (purposes : List Purpose)
    (trades : List Trade) (bts : List BondTrade) : MarketOutput :=
  let df := marketQuery sel bonds links issuers purposes trades bts
  if df.isEmpty then MarketOutput.noData "No bonds match your filter selections"
  else
    MarketOutput.view (mean (df.map (fun r => r.coupon_rate)))
      (mean (df.map (fun r => r.duration))) df.length

/-- What the Ratings and Risk view surfaces. -/
inductive RiskOutput
  | noData (msg : String)
  | view (totalRated : Nat) (avgCoupon : Option ℚ) (uniqueGrades : Nat)
      (latestUpdates : List RRow) (highestRisk : List RRow)
deriving DecidableEq

/-- The guard, metrics and tables of `render_ratings_risk`
(src/munis.py 229-335), as a function of the executed query result. -/
def render_ratings_risk (df : List RRow) : RiskOutput :=
  if df.isEmpty then
    RiskOutput.noData "No rating data available for the selected filters."
  else
    RiskOutput.view df.length (mean (df.map (fun r => r.coupon_rate)))
      ((df.map (fun r => r.rating)).dedup.length) (recent_updates df) (risky df)

/-- C7: a view whose query returns zero rows surfaces the informational
no-data state and computes no aggregates — the render is the bare
no-data message exactly when the result is empty, in both filtered
views, and the mean over an empty input is undefined (`none`), never
zero (never `some q` for any `q`). -/
theorem empty_result_no_data :
    (∀ (sel : MarketSelection) (bonds : List Bond) (links : List BondIssuer)
        (issuers : List Issuer) (purposes : List Purpose) (trades : List Trade)
        (bts : List BondTrade),
       marketQuery sel bonds links issuers purposes trades bts = [] ↔
         render_market_overview sel bonds links issuers purposes trades bts =
           MarketOutput.noData "No bonds match your filter selections") ∧
    (∀ df : List RRow, df = [] ↔
       render_ratings_risk df =
         RiskOutput.noData "No rating data available for the selected filters.") ∧
    mean [] = none ∧ (∀ q : ℚ, mean [] ≠ some q) := by
  refine ⟨?_, ?_, rfl, fun q h => by simp [mean] at h⟩
  · intro sel bonds links issuers purposes trades bts
    constructor
    · intro h
      simp [render_market_overview, h]
    · intro h
      by_contra hne
      have hie : (marketQuery sel bonds links issuers purposes trades bts).isEmpty
          = false := List.isEmpty_eq_false.mpr hne
      simp [render_market_overview, hie] at h
  · intro df
    constructor
    · intro h
      simp [render_ratings_risk, h]
    · intro h
      by_contra hne
      have hie : df.isEmpty = false := List.isEmpty_eq_false.mpr hne
      simp [render_ratings_risk, hie] at h

/-- Witness for C7: an empty ratings result renders the no-data message,
and the empty mean is not zero. -/
theorem empty_result_no_data_witness :
    render_ratings_risk [] =
      RiskOutput.noData "No rating data available for the selected filters." ∧
    mean [] ≠ some 0 :=
  ⟨(empty_result_no_data.2.1 []).mp rfl, empty_result_no_data.2.2.2 0⟩

/-! ### Derived field: years to maturity (src/munis.py 83-86)

`df["years_to_maturity"] = (maturity_date - issue_date).dt.days / 365.0`;
a row with a missing date gets a missing derived value but stays in the
table. -/

/-- Day-count difference divided by 365, absent when either date is. -/
def years_to_maturity (issue maturity : Option Date) : Option ℚ :=
  match issue, maturity with
  | some i, some m => some (((daysFromCivil m - daysFromCivil i : Int) : ℚ) / 365)
  | _, _ => none

/-- Attach the derived column to every row, keeping the row itself. -/
def withYearsToMaturity (df : List MRow) : List (MRow × Option ℚ) :=
  df.map (fun r => (r, years_to_maturity r.issue_date r.maturity_date))

/-- C8: with both dates present the derived value is the day count
between the dates divided by 365 — for issue 2020-01-01 and maturity
2030-01-01 that is 3653/365, within 3/365 of 10 (leap-day rounding);
a missing date makes the derived value absent without removing the row
from the table. -/
theorem years_to_maturity_spec :
    (years_to_maturity (some ⟨2020, 1, 1⟩) (some ⟨2030, 1, 1⟩) =
      some ((3653 : ℚ) / 365)) ∧
    (∀ q : ℚ, years_to_maturity (some ⟨2020, 1, 1⟩) (some ⟨2030, 1, 1⟩) = some q →
       |q - 10| ≤ 3 / 365) ∧
    (∀ i m : Option Date, i = none ∨ m = none → years_to_maturity i m = none) ∧
    (∀ df : List MRow, (withYearsToMaturity df).map Prod.fst = df) ∧
    (∀ i m : Date, years_to_maturity (some i) (some m) =
       some (((daysFromCivil m - daysFromCivil i : Int) : ℚ) / 365)) := by
  have hdays : daysFromCivil ⟨2030, 1, 1⟩ - daysFromCivil ⟨2020, 1, 1⟩ = 3653 := by
    decide
  have h1 : years_to_maturity (some ⟨2020, 1, 1⟩) (some ⟨2030, 1, 1⟩) =
      some ((3653 : ℚ) / 365) := by
    show some (((daysFromCivil ⟨2030, 1, 1⟩ - daysFromCivil ⟨2020, 1, 1⟩ : Int) : ℚ)
      / 365) = some ((3653 : ℚ) / 365)
    rw [hdays]
    norm_num
  refine ⟨h1, ?_, ?_,
    fun df => by simp [withYearsToMaturity, Function.comp_def],
    fun i m => rfl⟩
  · intro q hq
    rw [h1, Option.some_inj] at hq
    subst hq
    have habs : (3653 : ℚ) / 365 - 10 = 3 / 365 := by norm_num
    rw [habs, abs_of_nonneg (by norm_num)]
  · rintro i m (rfl | rfl)
    · cases m <;> rfl
    · cases i <;> rfl

/-- Witness for C8: the scenario value and the missing-date case at
concrete inputs. -/
theorem years_to_maturity_spec_witness :
    |(3653 : ℚ) / 365 - 10| ≤ 3 / 365 ∧
      years_to_maturity none (some ⟨2030, 1, 1⟩) = none :=
  ⟨years_to_maturity_spec.2.1 ((3653 : ℚ) / 365) years_to_maturity_spec.1,
   years_to_maturity_spec.2.2.1 none (some ⟨2030, 1, 1⟩) (Or.inl rfl)⟩

/-! ### The Bond Explorer view (src/munis.py 338-427)

`bond_sql` inner-joins `bonds_purposes` (`JOIN`, not `LEFT JOIN`), so a
bond without a matching purpose record yields no metadata row at all. -/

structure BRow where
  bond_id : Nat
  cusip : String
  type : String
  coupon_rate : ℚ
  issue_date : Option Date
  maturity_date : Option Date
  duration : ℚ
  tax_status : Bool
  purpose_category : String
  purpose_description : String
  issuer_name : Option String
  issuer_state : Option String
deriving DecidableEq

/-- Assemble one row of the `bond_sql` projection. -/
def mkBRow (b : Bond) (p : Purpose) (oi : Option Issuer) : BRow :=
  { bond_id := b.id, cusip := b.cusip, type := b.type,
    coupon_rate := b.coupon_rate, issue_date := b.issue_date,
    maturity_date := b.maturity_date, duration := b.duration,
    tax_status := b.tax_status, purpose_category := p.category,
    purpose_description := p.description,
    issuer_name := oi.map (fun i => i.name),
    issuer_state := oi.map (fun i => i.state) }

/-- `bond_sql` (src/munis.py 357-370): WHERE cusip match, INNER JOIN on
the purpose table, LEFT JOIN on the issuer side, LIMIT 1. -/
def bondMeta (bonds : List Bond) (purposes : List Purpose)
    (links : List BondIssuer) (issuers : List Issuer) (c : String) :
    List BRow :=
  ((bonds.filter (fun b => b.cusip == c)).flatMap (fun b =>
    (purposes.filter (fun p => b.purpose_id == some p.id)).flatMap (fun p =>
      (joinIssuer links issuers b).map (fun oi => mkBRow b p oi)))).take 1

/-- Ascending order on trade date (`ORDER BY t.date`). -/
def tradeAscLe (a b : Trade) : Bool := decide (a.date ≤ b.date)

/-- `trades_sql` (src/munis.py 399-406): the selected bond's trades,
oldest first. -/
def tradesForCusip (bonds : List Bond) (trades : List Trade)
    (bts : List BondTrade) (c : String) : List Trade :=
  insSort tradeAscLe (trades.flatMap (fun t =>
    (bts.filter (fun bt => bt.trade_id == t.id)).flatMap (fun bt =>
      (bonds.filter (fun b => b.id == bt.bond_id && b.cusip == c)).map
        (fun _ => t))))

/-- Python `str.strip()` (src/munis.py 354): drop leading and trailing
whitespace. -/
def pyStrip (s : String) : String :=
  ⟨((s.data.dropWhile (fun ch => ch.isWhitespace)).reverse.dropWhile
    (fun ch => ch.isWhitespace)).reverse⟩

/-- What the Bond Explorer view surfaces: each early `return` of the
source is a distinct outcome. -/
inductive BondOutput
  | noSelection
  | noMetadata
  | noTrades (summary : BRow)
  | full (summary : BRow) (trades : List Trade) (lastPrice lastYield : ℚ)
      (lastDate : Int)
deriving DecidableEq

/-- Control flow of `render_bond_explorer` (src/munis.py 338-427):
falsy selection returns; empty metadata warns and returns before the
trade query; empty trades warn and return before the latest-trade
metrics; otherwise the summary, history and `iloc[-1]` metrics render. -/
def render_bond_explorer (bonds : List Bond) (purposes : List Purpose)
    (links : List BondIssuer) (issuers : List Issuer) (trades : List Trade)
    (bts : List BondTrade) (selected : Option String) : BondOutput :=
  match selected with
  | none => BondOutput.noSelection
  | some c0 =>
    if c0 = "" then BondOutput.noSelection
    else
      let c := pyStrip c0
      match (bondMeta bonds purposes links issuers c).head? with
      | none => BondOutput.noMetadata
      | some bond =>
        let tr := tradesForCusip bonds trades bts c
        match tr.getLast? with
        | none => BondOutput.noTrades bond
        | some last => BondOutput.full bond tr last.price last.yield last.date

/-- C10: a selected CUSIP whose bond has no matching purpose record gets
zero rows from the inner-joined metadata query, so the view stops at the
no-metadata warning and renders neither the bond summary nor the trade
history or latest-trade metrics — whatever trades the bond has. -/
theorem missing_purpose_hides_bond (bonds : List Bond) (purposes : List Purpose)
    (links : List BondIssuer) (issuers : List Issuer) (trades : List Trade)
    (bts : List BondTrade) (c : String) (b : Bond)
    (hc : ¬ c = "")
    (huniq : bonds.filter (fun x => x.cusip == pyStrip c) = [b])
    (hnop : purposes.filter (fun p => b.purpose_id == some p.id) = []) :
    bondMeta bonds purposes links issuers (pyStrip c) = [] ∧
    render_bond_explorer bonds purposes links issuers trades bts (some c) =
      BondOutput.noMetadata := by
  have hmeta : bondMeta bonds purposes links issuers (pyStrip c) = [] := by
    rw [bondMeta, huniq]
    simp [hnop]
  refine ⟨hmeta, ?_⟩
  simp [render_bond_explorer, hc, hmeta]

def bondNoPurpose : Bond :=
  { id := 2, cusip := "NP0001", type := "GO", coupon_rate := 4,
    issue_date := some ⟨2019, 1, 1⟩, maturity_date := some ⟨2029, 1, 1⟩,
    duration := 6, tax_status := false, purpose_id := some 5 }

def tradeNP : Trade :=
  { id := 7, date := 19000, price := 100, yield := 3, quantity := 10 }

/-- Witness for C10: a concrete bond that exists and has a trade, but no
purpose record, renders only the no-metadata warning. -/
theorem missing_purpose_hides_bond_witness :
    render_bond_explorer [bondNoPurpose] [] [] [] [tradeNP] [⟨2, 7⟩]
      (some "NP0001") = BondOutput.noMetadata :=
  (missing_purpose_hides_bond [bondNoPurpose] [] [] [] [tradeNP] [⟨2, 7⟩]
    "NP0001" bondNoPurpose (by decide) (by decide) (by decide)).2

/-! ### Script-level control flow over the three tabs
(src/munis.py 429-436)

The renders execute sequentially — bond explorer, then ratings, then
market overview — and every `conn.query` call sits outside any
try/except, so a data-source error raised by the execution collaborator
propagates out of the `with` block and aborts the remaining renders.
Each render is modelled at the level of its query calls: the executor
returns a row count or fails. -/

def cusipsSqlText : String := "SELECT cusip FROM bonds ORDER BY cusip;"

def statesSqlText : String := "SELECT DISTINCT state FROM issuers ORDER BY state;"

def typesSqlText : String := "SELECT DISTINCT type FROM bonds ORDER BY type;"

def purposesSqlText : String :=
  "SELECT DISTINCT category FROM bonds_purposes ORDER BY category;"

def agenciesSqlText : String :=
  "SELECT DISTINCT agency FROM credit_ratings ORDER BY agency;"

def outlooksSqlText : String :=
  "SELECT DISTINCT outlook FROM credit_ratings ORDER BY outlook;"

def bondSqlText : String :=
  "SELECT b.id AS bond_id, b.cusip, b.type, b.coupon_rate, b.issue_date, " ++
    "b.maturity_date, b.duration, b.tax_status, bp.category AS purpose_category, " ++
    "bp.description AS purpose_description, i.name AS issuer_name, " ++
    "i.state AS issuer_state FROM bonds b " ++
    "JOIN bonds_purposes bp ON b.purpose_id = bp.id " ++
    "LEFT JOIN bonds_issuers bi ON bi.bond_id = b.id " ++
    "LEFT JOIN issuers i ON bi.issuer_id = i.id " ++
    "WHERE b.cusip = :cusip LIMIT 1;"

def tradesSqlText : String :=
  "SELECT t.date, t.price, t.yield, t.quantity FROM trades t " ++
    "JOIN bonds_trades bt ON bt.trade_id = t.id " ++
    "JOIN bonds b ON b.id = bt.bond_id " ++
    "WHERE b.cusip = :cusip ORDER BY t.date;"

/-- The query calls of `render_bond_explorer`, with its early returns on
empty results (src/munis.py 341-411). -/
def render_bond_explorerE (exec : String → Except String Nat) :
    Except String Unit := do
  let ncusips ← exec cusipsSqlText
  if ncusips == 0 then pure () else do
    let nmeta ← exec bondSqlText
    if nmeta == 0 then pure () else do
      let _ ← exec tradesSqlText
      pure ()

/-- The query calls of `render_ratings_risk` (src/munis.py 178-229). -/
def render_ratings_riskE (exec : String → Except String Nat)
    (sel : RiskSelection) : Except String Unit := do
  let _ ← exec statesSqlText
  let _ ← exec agenciesSqlText
  let _ ← exec outlooksSqlText
  let _ ← exec (riskSql sel)
  pure ()

/-- The query calls of `render_market_overview` (src/munis.py 22-77). -/
def render_market_overviewE (exec : String → Except String Nat)
    (sel : MarketSelection) : Except String Unit := do
  let _ ← exec statesSqlText
  let _ ← exec typesSqlText
  let _ ← exec purposesSqlText
  let _ ← exec (marketSql sel)
  pure ()

/-- The `with` blocks of src/munis.py 429-436, in source order, with no
error handling anywhere: the run yields the list of rendered tabs only
if every render succeeds. -/
def runTabs (exec : String → Except String Nat) (sel : MarketSelection)
    (rsel : RiskSelection) : Except String (List String) := do
  let _ ← render_bond_explorerE exec
  let _ ← render_ratings_riskE exec rsel
  let _ ← render_market_overviewE exec sel
  pure ["Bond Explorer", "Ratings and Risk", "Market Overview"]

/-- An executor that serves the Bond Explorer queries but fails on the
reference-list query the ratings view issues first. -/
def refDataFailExec : String → Except String Nat := fun q =>
  if q == statesSqlText then
    Except.error "data-source error: connection refused"
  else Except.ok 1

/-- C9 (refuted by the code): one failing query aborts the whole script
run — the Bond Explorer render succeeds on its own, but the ratings
view's failing query escapes every view, so no per-view no-data message
is produced and the independent Market Overview tab never renders. -/
theorem query_failure_aborts_all_tabs :
    runTabs refDataFailExec selNone rselNone =
      Except.error "data-source error: connection refused" ∧
    render_bond_explorerE refDataFailExec = Except.ok () := by
  constructor <;> rfl

/-! ### What the default sort kind actually guarantees (claims C4 and C6)

`sort_values` is called without a `kind` argument at src/munis.py
305-306, 332 and 164-169, so pandas uses the default quicksort, which
does not guarantee the relative order of rows with equal sort keys.
The code's sorts are therefore specified only up to `SortValuesSpec`;
the relations below close over every output the code may produce, and
the deterministic `insSort` embeddings realise one admissible
execution each. -/

/-- Every table `df.sort_values("rating_date", ascending=False)
.groupby("cusip").head(1)` may produce (src/munis.py 305-308): a
first-per-CUSIP selection over some date-sorted permutation of `df`. -/
def LatestPerKeyR (df out : List RRow) : Prop :=
  ∃ s, SortValuesSpec rdateDescLe df s ∧ out = dedupBy (fun r => r.cusip) s []

/-- Every table `df.sort_values("rating_sort", ascending=False).head(10)`
may produce (src/munis.py 332): the first 10 rows of some rank-sorted
permutation of `df`. -/
def RiskyR (df out : List RRow) : Prop :=
  ∃ s, SortValuesSpec ratingSortDescLe df s ∧ out = s.take 10

/-- Descending order on the aggregated mean
(`sort_values(ascending=False)`, src/munis.py 167). -/
def stateYieldDescLe (a b : String × ℚ) : Bool := decide (b.2 ≤ a.2)

theorem stateYieldDescLe_total :
    ∀ a b, stateYieldDescLe a b = true ∨ stateYieldDescLe b a = true := by
  intro a b
  simp only [stateYieldDescLe, decide_eq_true_eq]
  exact le_total _ _

theorem stateYieldDescLe_trans :
    ∀ a b c, stateYieldDescLe a b = true → stateYieldDescLe b c = true →
      stateYieldDescLe a c = true := by
  intro a b c
  simp only [stateYieldDescLe, decide_eq_true_eq]
  exact fun h1 h2 => le_trans h2 h1

/-- `df.groupby("state")["coupon_rate"].mean()` (src/munis.py 164-166):
one entry per distinct non-null state (pandas groupby drops null keys),
carrying the group's mean coupon rate. -/
def groupMeanCoupon (df : List MRow) : List (String × ℚ) :=
  ((df.filterMap (fun r => r.state)).dedup).map (fun s =>
    (s,
      ((df.filter (fun r => r.state == some s)).map (fun r => r.coupon_rate)).sum /
        ((df.filter (fun r => r.state == some s)).length : ℚ)))

/-- The "Top States by Average Yield" table (src/munis.py 164-169):
group means sorted descending, `head(10)` — the deterministic embedding
instantiating the sort with `insSort`. -/
def state_yield (df : List MRow) : List (String × ℚ) :=
  (insSort stateYieldDescLe (groupMeanCoupon df)).take 10

/-- Every table src/munis.py 164-169 may produce. -/
def StateYieldR (df : List MRow) (out : List (String × ℚ)) : Prop :=
  ∃ s, SortValuesSpec stateYieldDescLe (groupMeanCoupon df) s ∧ out = s.take 10

/-! Fixture rows with tied sort keys. -/

def rTieA : RRow :=
  { cusip := "A00001", coupon_rate := 5, duration := 5, type := "GO",
    issuer_name := none, state := none, agency := "SP", rating_date := 200,
    rating := "AA", outlook := "stable" }

def rTieB : RRow :=
  { cusip := "B00001", coupon_rate := 4, duration := 6, type := "Revenue",
    issuer_name := none, state := none, agency := "SP", rating_date := 200,
    rating := "BBB", outlook := "negative" }

/-- A ratings row with the given CUSIP and grade. -/
def mkRisk (c g : String) : RRow :=
  { cusip := c, coupon_rate := 5, duration := 5, type := "GO",
    issuer_name := none, state := none, agency := "SP", rating_date := 100,
    rating := g, outlook := "stable" }

def riskyTieNine : List RRow :=
  [mkRisk "C1" "D", mkRisk "C2" "D", mkRisk "C3" "D", mkRisk "C4" "D",
   mkRisk "C5" "D", mkRisk "C6" "D", mkRisk "C7" "D", mkRisk "C8" "D",
   mkRisk "C9" "D"]

/-- Nine worst-grade rows followed by two tied best-grade rows: the tie
sits exactly at the top-10 cutoff. -/
def riskyTieDf : List RRow :=
  riskyTieNine ++ [mkRisk "T1" "AAA", mkRisk "T2" "AAA"]

/-- Counterexample to C4 as stated: the two-row table below holds one row
per key and is itself an admissible latest-per-key output of itself, yet
re-applying the selection may return the rows in the opposite order —
the dates tie across the two CUSIPs, the default sort kind does not
preserve their order, and the two tables differ as ordered tables. -/
theorem latest_per_key_not_order_idempotent :
    LatestPerKeyR [rTieA, rTieB] [rTieA, rTieB] ∧
    LatestPerKeyR [rTieA, rTieB] [rTieB, rTieA] ∧
    [rTieB, rTieA] ≠ [rTieA, rTieB] :=
  ⟨⟨[rTieA, rTieB], ⟨by decide, by decide⟩, by decide⟩,
   ⟨[rTieB, rTieA], ⟨by decide, by decide⟩, by decide⟩,
   by decide⟩

/-- C4 (amended): the latest-record-per-key selection applied to its own
output — a table already holding one row per key — returns the same
rows: every admissible re-application result is a permutation of the
table, still with pairwise-distinct keys.  Equality as an ordered table
is not guaranteed, because the default sort kind may reorder rows whose
dates tie across distinct keys. -/
theorem latest_per_key_idempotent_up_to_permutation
    (df out1 out2 : List RRow)
    (h1 : LatestPerKeyR df out1) (h2 : LatestPerKeyR out1 out2) :
    out2.Perm out1 ∧ (out2.map (fun r => r.cusip)).Nodup := by
  obtain ⟨s1, ⟨hp1, hs1⟩, rfl⟩ := h1
  obtain ⟨s2, ⟨hp2, hs2⟩, rfl⟩ := h2
  have hnd1 : ((dedupBy (fun r : RRow => r.cusip) s1 []).map
      (fun r : RRow => r.cusip)).Nodup :=
    (dedupBy_nodup_and_fresh (fun r : RRow => r.cusip) s1 []).1
  have hmap : (s2.map (fun r : RRow => r.cusip)).Perm
      ((dedupBy (fun r : RRow => r.cusip) s1 []).map (fun r : RRow => r.cusip)) :=
    hp2.map _
  have hnd2 : (s2.map (fun r : RRow => r.cusip)).Nodup :=
    hmap.nodup_iff.mpr hnd1
  have heq : dedupBy (fun r : RRow => r.cusip) s2 [] = s2 :=
    dedupBy_eq_self _ s2 [] hnd2 (fun r _ h => absurd h (List.not_mem_nil _))
  rw [heq]
  exact ⟨hp2, hnd2⟩

/-- Witness for the amended C4 at the concrete tied-date table. -/
theorem latest_per_key_idempotent_up_to_permutation_witness :
    [rTieB, rTieA].Perm [rTieA, rTieB] ∧
      ([rTieB, rTieA].map (fun r => r.cusip)).Nodup :=
  latest_per_key_idempotent_up_to_permutation [rTieA, rTieB] [rTieA, rTieB]
    [rTieB, rTieA]
    ⟨[rTieA, rTieB], ⟨by decide, by decide⟩, by decide⟩
    ⟨[rTieB, rTieA], ⟨by decide, by decide⟩, by decide⟩

/-- Counterexample to C6 as stated: with a tie at the cutoff rank, two
different top-10 tables are both admissible results of
`sort_values("rating_sort", ascending=False).head(10)` on the same
input — the default sort kind does not guarantee that the
first-encountered tied row wins the cutoff. -/
theorem risky_tie_not_deterministic :
    RiskyR riskyTieDf (riskyTieNine ++ [mkRisk "T1" "AAA"]) ∧
    RiskyR riskyTieDf (riskyTieNine ++ [mkRisk "T2" "AAA"]) ∧
    riskyTieNine ++ [mkRisk "T1" "AAA"] ≠ riskyTieNine ++ [mkRisk "T2" "AAA"] :=
  ⟨⟨riskyTieNine ++ [mkRisk "T1" "AAA", mkRisk "T2" "AAA"],
    ⟨by decide, by decide⟩, by decide⟩,
   ⟨riskyTieNine ++ [mkRisk "T2" "AAA", mkRisk "T1" "AAA"],
    ⟨by decide, by decide⟩, by decide⟩,
   by decide⟩

/-- C6 (amended): top-N selection by a sort key takes the first rows of
a sort on that key, N fixed per view at 10: every admissible result of
the Highest-Risk table and of the top-states table (src/munis.py
164-169) has at most 10 rows, is ordered non-increasingly by the sort
key, and is drawn from the input — a 10-row prefix of some key-sorted
permutation — and the deterministic `insSort` embeddings `risky` and
`state_yield` are admissible results.  Which tied row survives the
cutoff rank is not guaranteed (see the counterexample). -/
theorem topN_sorted_head10 :
    (∀ (df out : List RRow), RiskyR df out →
       out.length ≤ 10 ∧
       List.Pairwise (fun a b => rating_rank b.rating ≤ rating_rank a.rating) out ∧
       ∀ r ∈ out, r ∈ df) ∧
    (∀ (df : List MRow) (out : List (String × ℚ)), StateYieldR df out →
       out.length ≤ 10 ∧
       List.Pairwise (fun a b => b.2 ≤ a.2) out ∧
       ∀ p ∈ out, p ∈ groupMeanCoupon df) ∧
    (∀ df : List RRow, RiskyR df (risky df)) ∧
    (∀ df : List MRow, StateYieldR df (state_yield df)) := by
  refine ⟨?_, ?_, ?_, ?_⟩
  · rintro df out ⟨s, ⟨hperm, hsort⟩, rfl⟩
    refine ⟨?_, ?_, ?_⟩
    · rw [List.length_take]
      exact Nat.min_le_left _ _
    · exact (hsort.sublist (List.take_sublist 10 s)).imp
        (by intro a b hab; simpa [ratingSortDescLe] using hab)
    · intro r hr
      exact hperm.mem_iff.mp (List.take_subset 10 s hr)
  · rintro df out ⟨s, ⟨hperm, hsort⟩, rfl⟩
    refine ⟨?_, ?_, ?_⟩
    · rw [List.length_take]
      exact Nat.min_le_left _ _
    · exact (hsort.sublist (List.take_sublist 10 s)).imp
        (by intro a b hab; simpa [stateYieldDescLe] using hab)
    · intro p hp
      exact hperm.mem_iff.mp (List.take_subset 10 s hp)
  · intro df
    exact ⟨insSort ratingSortDescLe df,
      ⟨insSort_perm _ df,
       insSort_pairwise _ ratingSortDescLe_total ratingSortDescLe_trans df⟩, rfl⟩
  · intro df
    exact ⟨insSort stateYieldDescLe (groupMeanCoupon df),
      ⟨insSort_perm _ _,
       insSort_pairwise _ stateYieldDescLe_total stateYieldDescLe_trans _⟩, rfl⟩

/-- Witness for the amended C6: the deterministic embedding is an
admissible result on the tied-cutoff table and obeys the length bound. -/
theorem topN_sorted_head10_witness :
    RiskyR riskyTieDf (risky riskyTieDf) ∧ (risky riskyTieDf).length ≤ 10 := by
  have hr := topN_sorted_head10.2.2.1 riskyTieDf
  exact ⟨hr, (topN_sorted_head10.1 riskyTieDf (risky riskyTieDf) hr).1⟩

end Munis
